import Mathlib

/-!
# Verification of the report aggregation engine of `package.py`

This file is a shallow embedding of the report aggregation core of the
`luxury_python_template` repository (`package.py`): the `Report` container with
its `List`, `Table` and `File` (code snippet) elements, the badge threshold
colorization of class `Badge`, and the `report()` methods of the scanner
adapters `StyleCheck`, `TypeCheck` and `SecurityCheck`.

Python objects are modelled as immutable Lean structures; methods that mutate
their receiver return the updated value.  Methods that can raise an exception
return `Except String _`, the error string naming the Python exception or
carrying the message built by the source.  Python `dict`s are modelled as
insertion-ordered association lists (`List (key × value)`); `dictInsert`
mirrors `d[k] = v` (update in place, append fresh keys at the end), `dictFind`
mirrors `d.get(k)` / `k in d`.

Interaction with the file system and the working directory is abstracted into
an environment `Env`: `abspath` models `Path(p).absolute()`, `relpath` models
`str(Path(p).absolute().relative_to(Path.cwd()))`, and `readlines` models the
line iterator over the opened file.
-/

namespace PackagePy

/-! ## Python dict and list primitives -/

/-- Lookup in an insertion-ordered association list, i.e. `d.get(k)`. -/
def dictFind {α β : Type} [DecidableEq α] (d : List (α × β)) (k : α) : Option β :=
  (d.find? (fun p => p.1 = k)).map Prod.snd

/-- `d[k] = v` on an insertion-ordered association list: an existing key keeps
its position and gets the new value, a fresh key is appended at the end. -/
def dictInsert {α β : Type} [DecidableEq α] : List (α × β) → α → β → List (α × β)
  | [], k, v => [(k, v)]
  | (k', v') :: rest, k, v =>
    if k' = k then (k', v) :: rest else (k', v') :: dictInsert rest k v

/-- Python `max` over a list of ints (`none` on the empty list, where Python
raises `ValueError`). -/
def listMax : List Int → Option Int
  | [] => none
  | x :: xs =>
    match listMax xs with
    | none => some x
    | some m => some (max x m)

/-- Python `min` over a list of ints (`none` on the empty list, where Python
raises `ValueError`). -/
def listMin : List Int → Option Int
  | [] => none
  | x :: xs =>
    match listMin xs with
    | none => some x
    | some m => some (min x m)

/-- Left-pad a digit string with zeros up to width `w`. -/
def padZeros (w : Nat) (s : String) : String :=
  String.mk (List.replicate (w - s.length) '0') ++ s

/-- Python `f"{n:08d}"`: zero-pad to a minimum total width of 8, the sign
included for negative numbers. -/
def pad8 (n : Int) : String :=
  if n < 0 then "-" ++ padZeros 7 (toString (-n)) else padZeros 8 (toString n)

/-! ## Settings constants used by the embedded code -/

/-- `Settings.REPORT_SECTION_NAME_STYLE`. -/
def REPORT_SECTION_NAME_STYLE : String := "Style"

/-- `Settings.REPORT_SECTION_NAME_SECURITY`. -/
def REPORT_SECTION_NAME_SECURITY : String := "Security"

/-- `Settings.REPORT_SECTION_NAME_DEPENDENCIES`. -/
def REPORT_SECTION_NAME_DEPENDENCIES : String := "Dependencies"

/-- `Settings.REPORT_LINE_RANGE`: context lines shown around a finding. -/
def REPORT_LINE_RANGE : Int := 10

/-- `Settings.REPORT_FILES_DIR` relative to the directory of `REPORT_HTML`
(`report/files` relative to `report`), as used when assigning snippet output
paths: `str(reldir / (str(index) + ".html"))`. -/
def filesRelDir : String := "files/"

/-! ## The environment: file system and working directory -/

/-- Abstraction of the ambient file system and working directory. -/
structure Env where
  /-- `str(Path(p).absolute())`. -/
  abspath : String → String
  /-- `str(Path(p).absolute().relative_to(Path.cwd()))`. -/
  relpath : String → String
  /-- The lines obtained by iterating over the opened file at a path
  (each line keeps its trailing newline, as in Python file iteration). -/
  readlines : String → List String

/-! ## `Report.File` (the CodeSnippet element) -/

/-- `Report.File.COLOR_GOOD`. -/
def COLOR_GOOD : String := "good"

/-- `Report.File.COLOR_BAD`. -/
def COLOR_BAD : String := "bad"

/-- `Report.File.COLOR_NEUTRAL`. -/
def COLOR_NEUTRAL : String := "neutral"

/-- `Report.File.COLOR_NONE`. -/
def COLOR_NONE : String := "none"

/-- The list of valid marking categories checked by `Report.File.mark` and
`Report.File.set_mark_name`. -/
def validMarkings : List String := [COLOR_GOOD, COLOR_BAD, COLOR_NEUTRAL, COLOR_NONE]

/-- One entry of `Report.File.lines`: a dict with keys `content` and `color`. -/
structure SourceLine where
  content : String
  color : String
deriving Repr, DecidableEq

/-- `Report.File`: one source file shown in the report, with per-line color
categories and a display range.  `range` is stored as a pair of ints exactly
as the source stores it (the setter clamps the lower bound at `0` and the
upper bound at `len(lines)`; a negative upper bound is stored as is). -/
structure ReportFile where
  filepath : String
  outputpath : String
  colorname : List (String × String)
  lines : List SourceLine
  range : Int × Int
deriving Repr, DecidableEq

namespace ReportFile

/-- `Report.File.__init__`: read the file, keep the non-empty lines with color
`COLOR_NONE`, fall back to a single empty line for an empty file, and set the
display range to the full file. -/
def init (filepath : String) (filelines : List String) : ReportFile :=
  let ls := (filelines.filter (fun l => l ≠ "")).map
    (fun l => { content := l, color := COLOR_NONE : SourceLine })
  let ls := if ls.isEmpty then [{ content := "", color := COLOR_NONE }] else ls
  { filepath := filepath
    outputpath := ""
    colorname := []
    lines := ls
    range := (0, (ls.length : Int)) }

/-- The `range` property setter:
`self.__range = (max(0, range[0]), min(len(self.lines), range[1]))`. -/
def setRange (f : ReportFile) (r : Int × Int) : ReportFile :=
  { f with range := (max 0 r.1, min (f.lines.length : Int) r.2) }

/-- `Report.File.set_mark_name`: reject an invalid category, otherwise store
the label under the category in the `colorname` dict. -/
def set_mark_name (f : ReportFile) (marking label : String) : Except String ReportFile :=
  if marking ∈ validMarkings then
    .ok { f with colorname := dictInsert f.colorname marking label }
  else
    .error "Invalid marking type."

/-- Overwrite the color of the line at 0-based index `i`. -/
def setLineColor : List SourceLine → Nat → String → List SourceLine
  | [], _, _ => []
  | l :: ls, 0, m => { l with color := m } :: ls
  | l :: ls, n + 1, m => l :: setLineColor ls n m

/-- The loop body of `Report.File.mark`: for each 1-based line number, raise
`ValueError` when it is out of `1 .. len(lines)`, otherwise overwrite that
line's color with the marking.  (In Python an exception thrown mid-loop leaves
the earlier lines mutated, but the exception propagates out of every caller in
the source, so that intermediate state is never observed.) -/
def markLoop (linecount : Nat) (filepath : String) (marking : String) :
    List SourceLine → List Int → Except String (List SourceLine)
  | ls, [] => .ok ls
  | ls, n :: rest =>
    if n > (linecount : Int) ∨ n < 1 then
      .error ("Invalid line number for " ++ filepath ++ ": " ++ toString n
        ++ ". Line number must be within 1 to " ++ toString (linecount + 1) ++ ".")
    else
      markLoop linecount filepath marking (setLineColor ls (n - 1).toNat marking) rest

/-- `Report.File.mark` with a list argument (an int argument is wrapped into a
singleton list by the source): return immediately on an empty list, then
validate the category, then color each listed line. -/
def mark (f : ReportFile) (inlines : List Int) (marking : String) :
    Except String ReportFile :=
  if inlines.isEmpty then .ok f
  else if marking ∈ validMarkings then
    (markLoop f.lines.length f.filepath marking f.lines inlines).map
      (fun ls => { f with lines := ls })
  else .error "Invalid marking type."

/-- `Report.File.identifier`: the source hashes the concatenation of absolute
file path, the zero-padded range bounds and the indexed per-line color
sequence.  Equal strings hash equal, so the embedding uses the concatenated
string itself as the identity key (the true-equality reading of the dedup,
which is also the one the spec assumes).  The `"None"` branch for an unset
range is unreachable after `__init__` and is not modelled. -/
def identifier (env : Env) (f : ReportFile) : String :=
  let filepath := env.abspath f.filepath
  let rangestr := pad8 f.range.1 ++ pad8 f.range.2
  let color := String.join (f.lines.enum.map (fun p => pad8 (p.1 : Int) ++ p.2.color))
  filepath ++ rangestr ++ color

end ReportFile

/-! ## `Report.List` and `Report.Table` -/

/-- `Report.List`: an expandable list of `(summary, details)` rows with an
optional `(name, value, unit)` summary metric (`none` models the falsy empty
tuple the source initializes `summary` with). -/
structure ReportList where
  heading : String
  entries : List (String × String)
  summary : Option (String × Int × String)
deriving Repr, DecidableEq

namespace ReportList

/-- `Report.List.__init__`. -/
def init (name : String) : ReportList :=
  { heading := name, entries := [], summary := none }

/-- `Report.List.add`: append one `(summary, details)` row. -/
def add (l : ReportList) (s d : String) : ReportList :=
  { l with entries := l.entries ++ [(s, d)] }

/-- `Report.List.count`: the number of rows. -/
def count (l : ReportList) : Nat :=
  l.entries.length

end ReportList

/-- `Report.Table`: rows are dicts keyed by the column names. -/
structure ReportTable where
  heading : String
  columns : List String
  entries : List (List (String × String))
  summary : Option (String × Int × String)
deriving Repr, DecidableEq

namespace ReportTable

/-- `Report.Table.__init__`. -/
def init (name : String) (columns : List String) : ReportTable :=
  { heading := name, columns := columns, entries := [], summary := none }

/-- `Report.Table.add`: raise `ValueError` unless exactly one value per
declared column is supplied, otherwise append the row keyed by the columns. -/
def add (t : ReportTable) (columndata : List String) : Except String ReportTable :=
  if columndata.length ≠ t.columns.length then
    .error ("Given number of columns (" ++ toString columndata.length
      ++ ") does not match table (" ++ toString t.columns.length ++ ").")
  else
    .ok { t with entries := t.entries ++ [t.columns.zip columndata] }

/-- `Report.Table.count`: the number of rows. -/
def count (t : ReportTable) : Nat :=
  t.entries.length

end ReportTable

/-! ## `Badge` threshold colorization -/

/-- A Python dict lookup `d[k]` that is only evaluated at keys of the dict;
the `"KeyError"` branch mirrors the exception Python would raise and is
unreachable at every call site in the source. -/
def dictGetColor (d : List (Int × String)) (k : Int) : String :=
  match dictFind d k with
  | some v => v
  | none => "KeyError"

/-- `Badge._getThresholdColorGTE`: the color of the largest threshold key that
is `<= value`, or the alert color `"red"` when no key qualifies. -/
def getThresholdColorGTE (thresholddict : List (Int × String)) (value : Int) : String :=
  let applicable := (thresholddict.map Prod.fst).filter (fun k => value ≥ k)
  match listMax applicable with
  | some m => dictGetColor thresholddict m
  | none => "red"

/-- `Badge._getThresholdColorLTE`: the color of the smallest threshold key
that is `>= value`, or the alert color `"red"` when no key qualifies. -/
def getThresholdColorLTE (thresholddict : List (Int × String)) (value : Int) : String :=
  let applicable := (thresholddict.map Prod.fst).filter (fun k => value ≤ k)
  match listMin applicable with
  | some m => dictGetColor thresholddict m
  | none => "red"

/-- `Badge.get_issue_badge_data`: an absent value renders as the explicit
label `"Unknown"` with the alert color, a present value is colorized by the
LTE policy and rendered as its decimal string. -/
def get_issue_badge_data (title : String) (value : Option Int)
    (thresholds : List (Int × String)) : String × String × String :=
  match value with
  | some v => (title, toString v, getThresholdColorLTE thresholds v)
  | none => (title, "Unknown", "red")

/-! ## The `Report` container -/

/-- The union of element kinds a section can hold (`Report.List` or
`Report.Table`; `Report.File` instances go to the snippet pool instead and are
dispatched separately by `Report.add`). -/
inductive Element where
  | list (l : ReportList)
  | table (t : ReportTable)
deriving Repr, DecidableEq

namespace Element

/-- The `count` property of the wrapped element. -/
def count : Element → Nat
  | .list l => l.count
  | .table t => t.count

/-- The `summary` attribute of the wrapped element. -/
def summary : Element → Option (String × Int × String)
  | .list l => l.summary
  | .table t => t.summary

end Element

/-- The dict returned by `Report.summary`, with keys `Report.SUMMARY_NAME`,
`Report.SUMMARY_VALUE` and `Report.SUMMARY_UNIT`. -/
structure Summary where
  name : String
  value : Int
  unit : String
deriving Repr, DecidableEq

/-- The aggregation root: `_sections` maps section names to the ordered
elements added under that name, `_files` is the deduplicated snippet pool
keyed by `Report.File.identifier`.  Both dicts preserve insertion order. -/
structure Report where
  sections : List (String × List Element)
  files : List (String × ReportFile)
deriving Repr, DecidableEq

/-- The argument union of `Report.add`, dispatched by `isinstance`. -/
inductive ReportData where
  | file (f : ReportFile)
  | elem (e : Element)
deriving Repr, DecidableEq

namespace Report

/-- A freshly constructed report: no sections, empty snippet pool. -/
def empty : Report :=
  { sections := [], files := [] }

/-- The `File` branch of `Report.add` (the section name is ignored for
files): an identity already in the pool redirects the new instance's output
path to the stored one's and discards it; a fresh identity is assigned the
next sequential output filename `files/<pool size>.html` and stored.  The
updated file is returned as well, modelling Python's in-place mutation of the
argument's `outputpath`, which callers read afterwards. -/
def addFile (env : Env) (r : Report) (f : ReportFile) : Report × ReportFile :=
  let index := r.files.length
  let ident := ReportFile.identifier env f
  match dictFind r.files ident with
  | some g => (r, { f with outputpath := g.outputpath })
  | none =>
    let f' := { f with outputpath := filesRelDir ++ toString index ++ ".html" }
    ({ r with files := r.files ++ [(ident, f')] }, f')

/-- The `List`/`Table` branch of `Report.add`: append the element to the named
section, creating the section on first use. -/
def addElem (r : Report) (sectionName : String) (e : Element) : Report :=
  match dictFind r.sections sectionName with
  | none => { r with sections := r.sections ++ [(sectionName, [e])] }
  | some es => { r with sections := dictInsert r.sections sectionName (es ++ [e]) }

/-- `Report.add`, dispatching on the kind of `data` as the source does with
`isinstance`. -/
def add (env : Env) (r : Report) (sectionName : String) (data : ReportData) :
    Report × ReportData :=
  match data with
  | .file f =>
    let p := addFile env r f
    (p.1, .file p.2)
  | .elem e => (addElem r sectionName e, .elem e)

/-- Fold a sequence of `Report.add` calls over the report. -/
def addSeq (env : Env) (r : Report) (ds : List (String × ReportData)) : Report :=
  ds.foldl (fun r p => (add env r p.1 p.2).1) r

/-- The fallback summary: name `"Issues"`, the sum of `count` over the
section's elements, and an empty unit. -/
def issuesSummary (es : List Element) : Summary :=
  { name := "Issues", value := (es.map (fun e => (e.count : Int))).sum, unit := "" }

/-- `Report.summary`: for a section holding exactly one element whose
`summary` attribute is a (truthy) tuple, that element's own metric; otherwise
the `"Issues"` count fallback.  A section name never added raises `KeyError`
in the source, modelled as `none`. -/
def summary (r : Report) (sectionName : String) : Option Summary :=
  match dictFind r.sections sectionName with
  | none => none
  | some es =>
    match es with
    | [e] =>
      match e.summary with
      | some nvu => some { name := nvu.1, value := nvu.2.1, unit := nvu.2.2 }
      | none => some (issuesSummary es)
    | _ => some (issuesSummary es)

/-- `Report.get_total`: the value of the summary metric. -/
def get_total (r : Report) (sectionName : String) : Option Int :=
  (r.summary sectionName).map Summary.value

/-- The per-snippet documents written by `Report.render`: one linked document
per entry of the deduplicated pool, at the entry's `outputpath`. -/
def renderedSnippetPaths (r : Report) : List String :=
  r.files.map (fun p => p.2.outputpath)

end Report

/-! ## Scanner adapter `report()` methods

The external tools' on-disk output files are modelled by `ToolFile`: the file
may be absent, present but empty, present with unparseable content, or
parseable, in which case the payload is the parsed data (for `TypeCheck` the
payload is directly the list of regex matches extracted from the failure text,
an absent failure node giving the empty list). -/

/-- State of one tool-output file. -/
inductive ToolFile (α : Type) where
  | missing
  | empty
  | malformed
  | parsed (data : α)

/-- One flake8 finding as stored in the style JSON file, with the keys
`StyleCheck.KEY_CODE`, `KEY_LINE`, `KEY_COLUMN` and `KEY_DESCRIPTION`. -/
structure FlakeIssue where
  code : String
  line_number : Int
  column_number : Int
  text : String
deriving Repr, DecidableEq

/-- The loop body over one issue of one file in `StyleCheck.report`: build the
snippet, mark the finding line, clamp the display window around it, add the
snippet to the report and append the list row. -/
def styleIssueStep (env : Env) (filename name : String)
    (acc : Report × ReportList) (issue : FlakeIssue) :
    Except String (Report × ReportList) := do
  let file := ReportFile.init filename (env.readlines filename)
  let file ← file.mark [issue.line_number] COLOR_BAD
  let file ← file.set_mark_name COLOR_BAD "Finding"
  let file := file.setRange
    (issue.line_number - REPORT_LINE_RANGE, issue.line_number + REPORT_LINE_RANGE)
  let p := Report.addFile env acc.1 file
  let summary := issue.text
  let details := "<b>Code</b>: " ++ issue.code ++ "<br />"
    ++ "<b>Line</b>: " ++ toString issue.line_number ++ "<br />"
    ++ "<b>Column</b>: " ++ toString issue.column_number ++ "<br />"
    ++ "<b>File</b>: " ++ "<a href=\"" ++ p.2.outputpath ++ "#"
    ++ toString issue.line_number ++ "\">" ++ name ++ "</a>"
  pure (p.1, acc.2.add summary details)

/-- The per-file loop of `StyleCheck.report`: one titled list per source file,
filled from that file's issues, then added to the style section. -/
def styleFileStep (env : Env) (r : Report) (filename : String)
    (issues : List FlakeIssue) : Except String Report := do
  let name := env.relpath filename
  let p ← issues.foldlM (styleIssueStep env filename name) (r, ReportList.init name)
  pure (p.1.addElem REPORT_SECTION_NAME_STYLE (.list p.2))

/-- `StyleCheck.report`: an absent or empty flake8 output file adds one empty
list to the style section (`file_has_content` is false); undecodable JSON adds
a `"Could not decode flake8 json file."` entry and leaves the (empty) data
dict to iterate; parsed data is grouped per file. -/
def styleCheck_report (env : Env) (flake : ToolFile (List (String × List FlakeIssue)))
    (r : Report) : Except String Report :=
  match flake with
  | .missing | .empty =>
    .ok (r.addElem REPORT_SECTION_NAME_STYLE (.list (ReportList.init "")))
  | .malformed =>
    let entries := (ReportList.init "").add "Could not decode flake8 json file." ""
    .ok (r.addElem REPORT_SECTION_NAME_STYLE (.list entries))
  | .parsed data =>
    data.foldlM (fun r p => styleFileStep env r p.1 p.2) r

/-- One match of `TypeCheck.REGEX_MSG` over the mypy failure text, the five
capture groups in order (file, line, message type, message, error code). -/
structure MypyMsg where
  filename : String
  line : Int
  msgtype : String
  msg : String
  code : String
deriving Repr, DecidableEq

/-- The mutable locals of the match loop in `TypeCheck.report`.  `identmap`
records, per file name, the pool key under which the snippet was stored
(`none` when `Report.add` discarded it as a duplicate): the source mutates the
pooled `File` objects in place after adding them, which the immutable
embedding reproduces by rewriting those pool entries at the end. -/
structure TCState where
  r : Report
  sections : List (String × ReportList)
  files : List (String × ReportFile)
  lineacc : List (String × List Int)
  identmap : List (String × Option String)

/-- The body of the match loop of `TypeCheck.report`: on first sight of a file
create its snippet, add it to the report and open its list; then mark the
line, record it, and append the list row. -/
def typeCheck_step (env : Env) (st : TCState) (m : MypyMsg) : Except String TCState := do
  let filename := env.relpath m.filename.trim
  let line := m.line
  let msgtype := m.msgtype.trim.capitalize
  let msg := m.msg.trim
  let code := m.code.trim
  let st ←
    if (dictFind st.sections filename).isNone then do
      let file := ReportFile.init filename (env.readlines filename)
      let ident := ReportFile.identifier env file
      let p := Report.addFile env st.r file
      let stored := if (dictFind st.r.files ident).isNone then some ident else none
      pure { st with
        r := p.1
        files := dictInsert st.files filename p.2
        lineacc := dictInsert st.lineacc filename []
        identmap := dictInsert st.identmap filename stored
        sections := dictInsert st.sections filename (ReportList.init filename) }
    else
      pure st
  match dictFind st.files filename, dictFind st.lineacc filename,
      dictFind st.sections filename with
  | some file, some lns, some sec => do
    let file ← file.mark [line] COLOR_BAD
    let file ← file.set_mark_name COLOR_BAD "Finding"
    let summary := "<b>" ++ code ++ "</b>: " ++ msg
    let details := "<b>Line</b>: " ++ toString line ++ "<br />"
      ++ "<b>Type</b>: " ++ msgtype ++ " <br />"
      ++ "<b>Code</b>: " ++ code ++ " <br />"
      ++ "<b>File</b>: <a href=\"" ++ file.outputpath ++ "#" ++ toString line
      ++ "\">" ++ filename ++ "</a>"
    pure { st with
      files := dictInsert st.files filename file
      lineacc := dictInsert st.lineacc filename (lns ++ [line])
      sections := dictInsert st.sections filename (sec.add summary details) }
  | _, _, _ => .error "KeyError"

/-- The closing loop of `TypeCheck.report`: clamp each snippet's display range
around its recorded lines (Python's `min`/`max` raise `ValueError` on an empty
sequence), make the source's in-place mutation of the pooled snippet visible
in the pool, and add the file's list to the `"Types"` section. -/
def typeCheck_finishStep (st : TCState) (r : Report)
    (p : String × ReportList) : Except String Report := do
  match dictFind st.files p.1, dictFind st.lineacc p.1, dictFind st.identmap p.1 with
  | some file, some lns, some stored =>
    match listMin lns, listMax lns with
    | some lo, some hi =>
      let file := file.setRange (lo - REPORT_LINE_RANGE, hi + REPORT_LINE_RANGE)
      let r :=
        match stored with
        | some ident => { r with files := dictInsert r.files ident file }
        | none => r
      pure (r.addElem "Types" (.list p.2))
    | _, _ => .error "ValueError"
  | _, _, _ => .error "KeyError"

/-- `TypeCheck.report`: `defusedxml.ElementTree.parse` raises on an absent
file (`FileNotFoundError`) and on empty or unparseable XML (`ParseError`); a
parse with no failure messages adds one empty list to `"Types"`. -/
def typeCheck_report (env : Env) (xml : ToolFile (List MypyMsg)) (r : Report) :
    Except String Report :=
  match xml with
  | .missing => .error "FileNotFoundError"
  | .empty => .error "ParseError"
  | .malformed => .error "ParseError"
  | .parsed msgs => do
    let st ← msgs.foldlM (typeCheck_step env)
      { r := r, sections := [], files := [], lineacc := [], identmap := [] }
    let r ← st.sections.foldlM (typeCheck_finishStep st) st.r
    if st.sections.isEmpty then
      pure (r.addElem "Types" (.list (ReportList.init "")))
    else
      pure r

/-- One vulnerability record of a safety JSON file. -/
structure SafetyVuln where
  vulnerability_id : String
  package_name : String
  vulnerable_spec : String
  analyzed_version : String
  advisory : String
deriving Repr, DecidableEq

/-- One result record of the bandit JSON file. -/
structure BanditEntry where
  test_name : String
  issue_text : String
  filename : String
  issue_confidence : String
  issue_severity : String
  test_id : String
  more_info : String
  line_range : List Int
deriving Repr, DecidableEq

/-- The loop over one safety output file in `SecurityCheck.report`: an absent
file contributes an `"Analysis failed."` entry; undecodable JSON is swallowed
by the `except JSONDecodeError: pass` and contributes nothing; decodable JSON
without the `"vulnerabilities"` key raises an uncaught `KeyError` (modelled by
the payload being `none`); otherwise one list entry per vulnerability. -/
def securitySafetyStep (r : Report) (name : String)
    (tf : ToolFile (Option (List SafetyVuln))) : Except String Report :=
  match tf with
  | .missing =>
    let entries := (ReportList.init name).add "Analysis failed." ""
    .ok (r.addElem "Dependencies" (.list entries))
  | .empty | .malformed => .ok r
  | .parsed none => .error "KeyError"
  | .parsed (some vulns) =>
    let entries := vulns.foldl (fun (entries : ReportList) v =>
      let summary := "<b>" ++ v.package_name ++ "</b> " ++ v.vulnerable_spec
      let details := "<b>ID</b>: " ++ v.vulnerability_id ++ "<br />"
        ++ "<b>Installed</b>: " ++ v.analyzed_version ++ "<br />" ++ v.advisory
      entries.add summary details) (ReportList.init name)
    .ok (r.addElem "Dependencies" (.list entries))

/-- The loop body over one bandit result in `SecurityCheck.report`: the
snippet for the finding's file is built, its lines marked, the display range
clamped around them, the snippet added, and the list row appended. -/
def securityBanditStep (env : Env) (acc : Report × ReportList) (entry : BanditEntry) :
    Except String (Report × ReportList) := do
  let filename := entry.filename
  let relfilename := env.relpath filename
  let file := ReportFile.init relfilename (env.readlines relfilename)
  match listMin entry.line_range, listMax entry.line_range with
  | some minline, some maxline => do
    let file ← file.mark entry.line_range COLOR_BAD
    let file ← file.set_mark_name COLOR_BAD "Finding"
    let file := file.setRange
      (minline - REPORT_LINE_RANGE, maxline + REPORT_LINE_RANGE)
    let p := Report.addFile env acc.1 file
    let summary := "<b>" ++ entry.test_name ++ "</b>: " ++ entry.issue_text
    let detail := "<b>Test ID</b>: " ++ entry.test_id ++ "<br />"
      ++ "<b>Severity</b>: " ++ entry.issue_severity ++ "<br />"
      ++ "<b>Confidence</b>: " ++ entry.issue_confidence ++ "<br />"
      ++ "<b>File</b>: " ++ "<a href=\"" ++ p.2.outputpath ++ "#" ++ toString minline
      ++ "\">" ++ relfilename ++ "</a>" ++ "<br />"
      ++ "<b>Line(s)</b>: " ++ String.intercalate ", " (entry.line_range.map toString)
      ++ "<br />"
      ++ "<b>More Information</b>: <a href=\"" ++ entry.more_info ++ "\">"
      ++ entry.more_info ++ "</a>"
    pure (p.1, acc.2.add summary detail)
  | _, _ => .error "ValueError"

/-- The bandit half of `SecurityCheck.report`: an absent output file adds one
`"Analysis failed."` list to the security section and returns; an empty or
undecodable file makes the unguarded `json.load` raise `JSONDecodeError`; a
decoded file without the `"results"` key gets an empty result list
substituted (payload `none`). -/
def securityBandit (env : Env) (bandit : ToolFile (Option (List BanditEntry)))
    (r : Report) : Except String Report :=
  match bandit with
  | .missing =>
    let entries := (ReportList.init "").add "Analysis failed." ""
    .ok (r.addElem REPORT_SECTION_NAME_SECURITY (.list entries))
  | .empty | .malformed => .error "JSONDecodeError"
  | .parsed data => do
    let results := data.getD []
    let p ← results.foldlM (securityBanditStep env) (r, ReportList.init "")
    pure (p.1.addElem REPORT_SECTION_NAME_SECURITY (.list p.2))

/-- `SecurityCheck.report`: the safety files (in the insertion order of
`self.safetyfilenames`) are reported into `"Dependencies"` first, then the
bandit file into the security section. -/
def securityCheck_report (env : Env)
    (safetyfiles : List (String × ToolFile (Option (List SafetyVuln))))
    (bandit : ToolFile (Option (List BanditEntry))) (r : Report) :
    Except String Report := do
  let r ← safetyfiles.foldlM (fun r p => securitySafetyStep r p.1 p.2) r
  securityBandit env bandit r

/-! ## Concrete instances used by witnesses and counterexamples -/

/-- A concrete environment: identity path resolution over a file system where
every file reads as the same three lines. -/
def idEnv : Env :=
  { abspath := fun s => s
    relpath := fun s => s
    readlines := fun _ => ["l1\n", "l2\n", "l3\n"] }

/-- A concrete three-line snippet built over `idEnv`. -/
def exFile : ReportFile := ReportFile.init "a.py" (idEnv.readlines "a.py")

/-- The threshold table of the spec's GTE example,
`{90: "orange", 94: "yellow", 99: "brightgreen"}`. -/
def exThresholds : List (Int × String) :=
  [(90, "orange"), (94, "yellow"), (99, "brightgreen")]

/-- A list element with `n` identical rows and no declared summary. -/
def exListOf (name : String) (n : Nat) : ReportList :=
  { heading := name, entries := List.replicate n ("s", "d"), summary := none }

/-- A report with one section `"Sec"` holding two lists of 3 and 5 entries,
neither declaring a summary tuple. -/
def exTwoListsReport : Report :=
  (Report.empty.addElem "Sec" (.list (exListOf "a" 3))).addElem "Sec"
    (.list (exListOf "b" 5))

/-- The elements a report holds under a section name (empty when the section
was never added). -/
def Report.sectionElems (r : Report) (sectionName : String) : List Element :=
  (dictFind r.sections sectionName).getD []

/-! ## Supporting lemmas -/

theorem dictFind_nil {α β : Type} [DecidableEq α] (k : α) :
    dictFind ([] : List (α × β)) k = none := rfl

theorem dictFind_cons {α β : Type} [DecidableEq α] (p : α × β) (d : List (α × β)) (k : α) :
    dictFind (p :: d) k = if p.1 = k then some p.2 else dictFind d k := by
  by_cases h : p.1 = k <;> simp [dictFind, List.find?_cons, h]

theorem dictFind_append_left {α β : Type} [DecidableEq α] {d₁ : List (α × β)} {k : α}
    {v : β} (d₂ : List (α × β)) (h : dictFind d₁ k = some v) :
    dictFind (d₁ ++ d₂) k = some v := by
  induction d₁ with
  | nil => simp [dictFind_nil] at h
  | cons p d ih =>
    rw [dictFind_cons] at h
    by_cases hp : p.1 = k
    · simp [hp] at h
      simp [List.cons_append, dictFind_cons, hp, h]
    · simp [hp] at h
      simp [List.cons_append, dictFind_cons, hp, ih h]

theorem dictFind_append_right {α β : Type} [DecidableEq α] {d₁ : List (α × β)} {k : α}
    (d₂ : List (α × β)) (h : dictFind d₁ k = none) :
    dictFind (d₁ ++ d₂) k = dictFind d₂ k := by
  induction d₁ with
  | nil => simp
  | cons p d ih =>
    rw [dictFind_cons] at h
    by_cases hp : p.1 = k
    · simp [hp] at h
    · simp [hp] at h
      simp [List.cons_append, dictFind_cons, hp, ih h]

theorem dictFind_insert_self {α β : Type} [DecidableEq α] (d : List (α × β)) (k : α)
    (v : β) : dictFind (dictInsert d k v) k = some v := by
  induction d with
  | nil => simp [dictInsert, dictFind_cons]
  | cons p d ih =>
    by_cases hp : p.1 = k
    · simp [dictInsert, hp, dictFind_cons]
    · simp [dictInsert, hp, dictFind_cons, ih]

theorem keys_ne_of_dictFind_none {α β : Type} [DecidableEq α] {d : List (α × β)} {k : α}
    (h : dictFind d k = none) : ∀ p ∈ d, p.1 ≠ k := by
  induction d with
  | nil => simp
  | cons p d ih =>
    rw [dictFind_cons] at h
    by_cases hp : p.1 = k
    · simp [hp] at h
    · simp [hp] at h
      intro q hq
      rcases List.mem_cons.mp hq with hq | hq
      · rw [hq]; exact hp
      · exact ih h q hq

theorem count_keys_eq_zero_of_dictFind_none {α β : Type} [DecidableEq α]
    {d : List (α × β)} {k : α} (h : dictFind d k = none) :
    (d.map Prod.fst).count k = 0 := by
  rw [List.count_eq_zero]
  intro hk
  rcases List.mem_map.mp hk with ⟨p, hp, hpk⟩
  exact keys_ne_of_dictFind_none h p hp hpk

theorem listMax_eq_none {l : List Int} (h : listMax l = none) : l = [] := by
  cases l with
  | nil => rfl
  | cons x xs =>
    rw [listMax] at h
    cases hxs : listMax xs <;> rw [hxs] at h <;> simp at h

theorem listMax_spec {l : List Int} {m : Int} (h : listMax l = some m) :
    m ∈ l ∧ ∀ x ∈ l, x ≤ m := by
  induction l generalizing m with
  | nil => simp [listMax] at h
  | cons x xs ih =>
    rw [listMax] at h
    cases hxs : listMax xs with
    | none =>
      rw [hxs] at h
      simp at h
      subst h
      rw [listMax_eq_none hxs]
      simp
    | some m' =>
      rw [hxs] at h
      simp at h
      subst h
      rcases ih hxs with ⟨hmem, hmax⟩
      constructor
      · rcases max_choice x m' with hc | hc
        · rw [hc]; exact List.mem_cons_self x xs
        · rw [hc]; exact List.mem_cons_of_mem x hmem
      · intro y hy
        rcases List.mem_cons.mp hy with hy | hy
        · rw [hy]; exact le_max_left x m'
        · exact le_trans (hmax y hy) (le_max_right x m')

theorem listMin_eq_none {l : List Int} (h : listMin l = none) : l = [] := by
  cases l with
  | nil => rfl
  | cons x xs =>
    rw [listMin] at h
    cases hxs : listMin xs <;> rw [hxs] at h <;> simp at h

theorem listMin_spec {l : List Int} {m : Int} (h : listMin l = some m) :
    m ∈ l ∧ ∀ x ∈ l, m ≤ x := by
  induction l generalizing m with
  | nil => simp [listMin] at h
  | cons x xs ih =>
    rw [listMin] at h
    cases hxs : listMin xs with
    | none =>
      rw [hxs] at h
      simp at h
      subst h
      rw [listMin_eq_none hxs]
      simp
    | some m' =>
      rw [hxs] at h
      simp at h
      subst h
      rcases ih hxs with ⟨hmem, hmin⟩
      constructor
      · rcases min_choice x m' with hc | hc
        · rw [hc]; exact List.mem_cons_self x xs
        · rw [hc]; exact List.mem_cons_of_mem x hmem
      · intro y hy
        rcases List.mem_cons.mp hy with hy | hy
        · rw [hy]; exact min_le_left x m'
        · exact le_trans (min_le_right x m') (hmin y hy)

theorem dictFind_of_mem_nodup {α β : Type} [DecidableEq α] {d : List (α × β)} {k : α}
    {c : β} (hnd : (d.map Prod.fst).Nodup) (hmem : (k, c) ∈ d) :
    dictFind d k = some c := by
  induction d with
  | nil => simp at hmem
  | cons p d ih =>
    rw [List.map_cons, List.nodup_cons] at hnd
    rcases List.mem_cons.mp hmem with hq | hq
    · rw [← hq, dictFind_cons]
      simp
    · rw [dictFind_cons]
      have hpk : p.1 ≠ k := by
        intro hc
        exact hnd.1 (hc ▸ List.mem_map.mpr ⟨(k, c), hq, rfl⟩)
      simp [hpk]
      exact ih hnd.2 hq

theorem addFile_files_of_found {env : Env} {r : Report} {k : String} {v : ReportFile}
    (f : ReportFile) (h : dictFind r.files k = some v) :
    dictFind (Report.addFile env r f).1.files k = some v ∧
    ((Report.addFile env r f).1.files.map Prod.fst).count k
      = (r.files.map Prod.fst).count k := by
  cases hf : dictFind r.files (ReportFile.identifier env f) with
  | some g =>
    unfold Report.addFile
    simp only [hf]
    exact ⟨h, trivial⟩
  | none =>
    have hk : ReportFile.identifier env f ≠ k := by
      intro hc
      rw [hc, h] at hf
      cases hf
    unfold Report.addFile
    simp only [hf]
    constructor
    · exact dictFind_append_left _ h
    · simp [List.count_append, List.count_cons, hk]

theorem add_files_of_found (env : Env) {r : Report} {k : String} {v : ReportFile}
    (s : String) (d : ReportData) (h : dictFind r.files k = some v) :
    dictFind (Report.add env r s d).1.files k = some v ∧
    ((Report.add env r s d).1.files.map Prod.fst).count k
      = (r.files.map Prod.fst).count k := by
  cases d with
  | file f => exact addFile_files_of_found f h
  | elem e =>
    have hfiles : (Report.add env r s (.elem e)).1.files = r.files := by
      unfold Report.add Report.addElem
      cases dictFind r.sections s <;> rfl
    rw [hfiles]
    exact ⟨h, rfl⟩

theorem addSeq_files_of_found (env : Env) {k : String} {v : ReportFile}
    (ds : List (String × ReportData)) (r : Report)
    (h : dictFind r.files k = some v) :
    dictFind (Report.addSeq env r ds).files k = some v ∧
    ((Report.addSeq env r ds).files.map Prod.fst).count k
      = (r.files.map Prod.fst).count k := by
  induction ds generalizing r with
  | nil => exact ⟨h, rfl⟩
  | cons d ds ih =>
    have hstep := add_files_of_found env d.1 d.2 h
    have hrest := ih _ hstep.1
    have hfold : Report.addSeq env r (d :: ds)
        = Report.addSeq env (Report.add env r d.1 d.2).1 ds := rfl
    rw [hfold]
    exact ⟨hrest.1, hrest.2.trans hstep.2⟩

theorem sectionElems_addElem (r : Report) (s : String) (e : Element) :
    (r.addElem s e).sectionElems s = r.sectionElems s ++ [e] := by
  unfold Report.addElem Report.sectionElems
  cases h : dictFind r.sections s with
  | none =>
    simp only [h]
    rw [dictFind_append_right _ h, dictFind_cons]
    simp
  | some es =>
    simp only [h]
    rw [dictFind_insert_self]
    simp

theorem setLineColor_length (ls : List SourceLine) (i : Nat) (m : String) :
    (ReportFile.setLineColor ls i m).length = ls.length := by
  induction ls generalizing i with
  | nil => rfl
  | cons l ls ih => cases i <;> simp [ReportFile.setLineColor, ih]

theorem setLineColor_get? (ls : List SourceLine) (i : Nat) (m : String) :
    (ReportFile.setLineColor ls i m).get? i
      = (ls.get? i).map (fun l => { l with color := m }) := by
  induction ls generalizing i with
  | nil => rfl
  | cons l ls ih =>
    cases i with
    | zero => rfl
    | succ n => simpa [ReportFile.setLineColor] using ih n

/-! ## Claim theorems -/

/-- **C3**: for every `File` and every display-range assignment `(lo, hi)`,
including negative `lo` or `hi` beyond the file length, the stored range
equals `(max(0, lo), min(lineCount, hi))` where `lineCount` is the number of
stored lines of the `File`. -/
theorem display_range_clamped (f : ReportFile) (lo hi : Int) :
    (f.setRange (lo, hi)).range = (max 0 lo, min ((f.lines.length : Int)) hi) := rfl

/-- **C9**: requesting issue-badge data with an absent value returns the
explicit label `"Unknown"` with the alert color `"red"` (a total function, so
no crash, and the text is not blank), and a present value is colorized via
the LTE threshold policy. -/
theorem issue_badge_unknown_handling (title : String) (thresholds : List (Int × String)) :
    get_issue_badge_data title none thresholds = (title, "Unknown", "red") ∧
    "Unknown" ≠ "" ∧
    (∀ v : Int, get_issue_badge_data title (some v) thresholds
      = (title, toString v, getThresholdColorLTE thresholds v)) :=
  ⟨rfl, by decide, fun _ => rfl⟩

/-- **C10**: `mark` called with an empty line list returns without error and
leaves the file (all line colors and the display range) unchanged, for every
marking string, including strings that are not a valid color category: the
empty-list early return precedes the category validation. -/
theorem mark_empty_lines_returns_ok (f : ReportFile) (marking : String) :
    f.mark [] marking = .ok f := rfl

/-- **C2**, counterexample: the claim fails on the code as stated.
`TypeCheck.report` raises (`FileNotFoundError`) when its tool-output file is
absent instead of treating it as "scan did not run", and raises
(`ParseError`) when it is present but unparseable; `SecurityCheck.report`
aborts on a malformed bandit file (`JSONDecodeError` from the unguarded
`json.load`), and a malformed safety file produces no "analysis failed"
placeholder at all (the report is returned unchanged, the `"Dependencies"`
section stays absent). -/
theorem adapter_error_handling_cex :
    typeCheck_report idEnv .missing Report.empty = .error "FileNotFoundError" ∧
    typeCheck_report idEnv .malformed Report.empty = .error "ParseError" ∧
    securityBandit idEnv .malformed Report.empty = .error "JSONDecodeError" ∧
    securitySafetyStep Report.empty "setup.cfg.json" .malformed = .ok Report.empty ∧
    Report.empty.sectionElems "Dependencies" = [] :=
  ⟨rfl, rfl, rfl, rfl, rfl⟩

/-- **C2**, amended: `StyleCheck.report` treats an absent or empty tool-output
file as "scan did not run" (one empty list in the style section) and recovers
a malformed one locally with a decode-failure placeholder entry, without
aborting; `SecurityCheck.report` adds an `"Analysis failed."` placeholder when
a tool-output file is absent, but silently skips a malformed safety file (no
placeholder) and aborts on a malformed bandit file; `TypeCheck.report` raises
an error when its tool-output file is absent or malformed. -/
theorem adapter_error_handling_amended (env : Env) (r : Report) (name : String) :
    styleCheck_report env .missing r
      = .ok (r.addElem REPORT_SECTION_NAME_STYLE (.list (ReportList.init ""))) ∧
    styleCheck_report env .empty r
      = .ok (r.addElem REPORT_SECTION_NAME_STYLE (.list (ReportList.init ""))) ∧
    styleCheck_report env .malformed r
      = .ok (r.addElem REPORT_SECTION_NAME_STYLE
          (.list ((ReportList.init "").add "Could not decode flake8 json file." ""))) ∧
    typeCheck_report env .missing r = .error "FileNotFoundError" ∧
    typeCheck_report env .malformed r = .error "ParseError" ∧
    securitySafetyStep r name .missing
      = .ok (r.addElem "Dependencies"
          (.list ((ReportList.init name).add "Analysis failed." ""))) ∧
    securitySafetyStep r name .malformed = .ok r ∧
    securityBandit env .missing r
      = .ok (r.addElem REPORT_SECTION_NAME_SECURITY
          (.list ((ReportList.init "").add "Analysis failed." ""))) ∧
    securityBandit env .malformed r = .error "JSONDecodeError" :=
  ⟨rfl, rfl, rfl, rfl, rfl, rfl, rfl, rfl, rfl⟩

/-- **C8**, counterexample: the claim fails on the code as stated.  A style
tool-output file that is present and decodes to an empty mapping (file content
`"{}"`) is a state with zero issues to report, yet `StyleCheck.report` adds no
list at all: the report is returned unchanged and the style section is
entirely absent. -/
theorem empty_section_placeholder_cex :
    styleCheck_report idEnv (.parsed []) Report.empty = .ok Report.empty ∧
    Report.empty.sectionElems REPORT_SECTION_NAME_STYLE = [] ∧
    Report.empty.sections = [] :=
  ⟨rfl, rfl, rfl⟩

/-- **C8**, amended: when the tool-output file is absent or empty,
`StyleCheck.report` adds exactly one empty list to the style section, and
`TypeCheck.report` adds exactly one empty list to `"Types"` when its parse
yields no finding; but when the style output decodes to an empty mapping,
nothing is added and the style section can be entirely absent. -/
theorem empty_section_placeholder_amended (env : Env) (r : Report) :
    (∃ r', styleCheck_report env .missing r = .ok r' ∧
      r'.sectionElems REPORT_SECTION_NAME_STYLE
        = r.sectionElems REPORT_SECTION_NAME_STYLE ++ [.list (ReportList.init "")]) ∧
    (∃ r', styleCheck_report env .empty r = .ok r' ∧
      r'.sectionElems REPORT_SECTION_NAME_STYLE
        = r.sectionElems REPORT_SECTION_NAME_STYLE ++ [.list (ReportList.init "")]) ∧
    (∃ r', typeCheck_report env (.parsed []) r = .ok r' ∧
      r'.sectionElems "Types" = r.sectionElems "Types" ++ [.list (ReportList.init "")]) ∧
    (ReportList.init "").entries = [] ∧
    styleCheck_report env (.parsed []) r = .ok r :=
  ⟨⟨_, rfl, sectionElems_addElem r _ _⟩, ⟨_, rfl, sectionElems_addElem r _ _⟩,
    ⟨_, rfl, sectionElems_addElem r _ _⟩, rfl, rfl⟩

/-- **C4**: over a threshold table with distinct keys, the GTE policy returns
the color of the largest key `<= value` and the LTE policy the color of the
smallest key `>= value`; when no key qualifies, both return the alert color
`"red"`.  With thresholds `{90: orange, 94: yellow, 99: brightgreen}` the GTE
policy maps 95 to yellow, 100 to brightgreen and 10 to the fallback color. -/
theorem badge_threshold_policies (d : List (Int × String)) (value : Int)
    (hnd : (d.map Prod.fst).Nodup) :
    (∀ k c, (k, c) ∈ d → k ≤ value →
      (∀ k' ∈ d.map Prod.fst, k' ≤ value → k' ≤ k) →
      getThresholdColorGTE d value = c) ∧
    ((∀ k' ∈ d.map Prod.fst, ¬ k' ≤ value) → getThresholdColorGTE d value = "red") ∧
    (∀ k c, (k, c) ∈ d → value ≤ k →
      (∀ k' ∈ d.map Prod.fst, value ≤ k' → k ≤ k') →
      getThresholdColorLTE d value = c) ∧
    ((∀ k' ∈ d.map Prod.fst, ¬ value ≤ k') → getThresholdColorLTE d value = "red") ∧
    getThresholdColorGTE exThresholds 95 = "yellow" ∧
    getThresholdColorGTE exThresholds 100 = "brightgreen" ∧
    getThresholdColorGTE exThresholds 10 = "red" := by
  refine ⟨?_, ?_, ?_, ?_, by decide, by decide, by decide⟩
  · intro k c hmem hk hmax
    unfold getThresholdColorGTE
    have hkapp : k ∈ (d.map Prod.fst).filter (fun k' => value ≥ k') :=
      List.mem_filter.mpr ⟨List.mem_map.mpr ⟨(k, c), hmem, rfl⟩, by simpa using hk⟩
    cases hM : listMax ((d.map Prod.fst).filter (fun k' => value ≥ k')) with
    | none =>
      rw [listMax_eq_none hM] at hkapp
      simp at hkapp
    | some m =>
      simp only [hM]
      rcases listMax_spec hM with ⟨hmmem, hmub⟩
      have hm1 := List.mem_filter.mp hmmem
      have hmk : m ≤ k := hmax m hm1.1 (by simpa using hm1.2)
      have hkm : k ≤ m := hmub k hkapp
      have hmeq : m = k := le_antisymm hmk hkm
      subst hmeq
      unfold dictGetColor
      rw [dictFind_of_mem_nodup hnd hmem]
  · intro hnone
    unfold getThresholdColorGTE
    have hfil : (d.map Prod.fst).filter (fun k' => value ≥ k') = [] := by
      rw [List.filter_eq_nil_iff]
      intro k hk
      simpa using hnone k hk
    rw [hfil]
    rfl
  · intro k c hmem hk hmin
    unfold getThresholdColorLTE
    have hkapp : k ∈ (d.map Prod.fst).filter (fun k' => value ≤ k') :=
      List.mem_filter.mpr ⟨List.mem_map.mpr ⟨(k, c), hmem, rfl⟩, by simpa using hk⟩
    cases hM : listMin ((d.map Prod.fst).filter (fun k' => value ≤ k')) with
    | none =>
      rw [listMin_eq_none hM] at hkapp
      simp at hkapp
    | some m =>
      simp only [hM]
      rcases listMin_spec hM with ⟨hmmem, hmlb⟩
      have hm1 := List.mem_filter.mp hmmem
      have hkm : k ≤ m := hmin m hm1.1 (by simpa using hm1.2)
      have hmk : m ≤ k := hmlb k hkapp
      have hmeq : m = k := le_antisymm hmk hkm
      subst hmeq
      unfold dictGetColor
      rw [dictFind_of_mem_nodup hnd hmem]
  · intro hnone
    unfold getThresholdColorLTE
    have hfil : (d.map Prod.fst).filter (fun k' => value ≤ k') = [] := by
      rw [List.filter_eq_nil_iff]
      intro k hk
      simpa using hnone k hk
    rw [hfil]
    rfl

/-- Witness for **C4** at the spec's concrete table: the key 94 is the
largest key below 95, so the GTE policy resolves 95 to `"yellow"`. -/
theorem badge_threshold_policies_witness :
    getThresholdColorGTE exThresholds 95 = "yellow" :=
  (badge_threshold_policies exThresholds 95 (by decide)).1 94 "yellow"
    (by decide) (by decide) (by decide)

/-- **C5**: for a section present in the report, `summary` returns the single
element's own declared `(name, value, unit)` tuple when the section holds
exactly one element that declares one, and otherwise the name `"Issues"`, the
sum of `count` over the section's elements, and an empty unit; in particular
a section with two lists of 3 and 5 undeclared-summary entries reports
`("Issues", 8, "")`. -/
theorem section_summary_rule (r : Report) (sectionName : String) (es : List Element)
    (hlook : dictFind r.sections sectionName = some es) :
    (∀ e nvu, es = [e] → e.summary = some nvu →
      r.summary sectionName
        = some { name := nvu.1, value := nvu.2.1, unit := nvu.2.2 }) ∧
    (∀ e, es = [e] → e.summary = none →
      r.summary sectionName
        = some { name := "Issues", value := (es.map (fun e => (e.count : Int))).sum,
                 unit := "" }) ∧
    (es.length ≠ 1 →
      r.summary sectionName
        = some { name := "Issues", value := (es.map (fun e => (e.count : Int))).sum,
                 unit := "" }) ∧
    Report.summary exTwoListsReport "Sec"
      = some { name := "Issues", value := 8, unit := "" } := by
  refine ⟨?_, ?_, ?_, by decide⟩
  · intro e nvu h1 h2
    subst h1
    unfold Report.summary
    rw [hlook]
    simp [h2]
  · intro e h1 h2
    subst h1
    unfold Report.summary
    rw [hlook]
    simp [h2, Report.issuesSummary]
  · intro hlen
    unfold Report.summary
    rw [hlook]
    cases es with
    | nil => simp [Report.issuesSummary]
    | cons e tl =>
      cases tl with
      | nil => simp at hlen
      | cons e2 tl2 => simp [Report.issuesSummary]

/-- Witness for **C5**: the two-list report's `"Sec"` section is present and
its summary is the `"Issues"` fallback with value 3 + 5 = 8. -/
theorem section_summary_rule_witness :
    Report.summary exTwoListsReport "Sec"
      = some { name := "Issues", value := 8, unit := "" } :=
  (section_summary_rule exTwoListsReport "Sec"
    [.list (exListOf "a" 3), .list (exListOf "b" 5)] (by decide)).2.2.2

/-- **C6**: adding a table row with a number of values different from the
declared column count raises a contract error (`ValueError`), and adding a
row with matching arity succeeds and increments `count` by exactly one. -/
theorem table_add_arity (t : ReportTable) (vals : List String) :
    (vals.length ≠ t.columns.length → ∃ msg, t.add vals = .error msg) ∧
    (vals.length = t.columns.length →
      ∃ t', t.add vals = .ok t' ∧ t'.count = t.count + 1) := by
  constructor
  · intro h
    unfold ReportTable.add
    rw [if_pos h]
    exact ⟨_, rfl⟩
  · intro h
    unfold ReportTable.add
    rw [if_neg (by simp [h])]
    refine ⟨_, rfl, ?_⟩
    simp [ReportTable.count]

/-- Witness for **C6**: on a two-column table, a two-value row is accepted and
the row count grows from 0 to 1. -/
theorem table_add_arity_witness :
    ∃ t', (ReportTable.init "t" ["a", "b"]).add ["1", "2"] = .ok t' ∧
      t'.count = (ReportTable.init "t" ["a", "b"]).count + 1 :=
  (table_add_arity (ReportTable.init "t" ["a", "b"]) ["1", "2"]).2 rfl

/-- For an in-bounds 1-based line, `mark` on a singleton list succeeds and
overwrites exactly that line's color array entry. -/
theorem mark_singleton_ok (f : ReportFile) (line : Int) (m : String)
    (hm : m ∈ validMarkings) (h1 : 1 ≤ line) (h2 : line ≤ (f.lines.length : Int)) :
    f.mark [line] m
      = .ok { f with lines := ReportFile.setLineColor f.lines (line - 1).toNat m } := by
  unfold ReportFile.mark
  rw [if_neg (by simp)]
  rw [if_pos hm]
  unfold ReportFile.markLoop
  rw [if_neg (by omega)]
  unfold ReportFile.markLoop
  rfl

/-- **C7**: marking an in-bounds line with the BAD category and then with the
GOOD category leaves the line's final color category GOOD: the later `mark`
overwrites the earlier category. -/
theorem mark_last_write_wins (f : ReportFile) (line : Int)
    (h1 : 1 ≤ line) (h2 : line ≤ (f.lines.length : Int)) :
    ∃ f1 f2, f.mark [line] COLOR_BAD = .ok f1 ∧
      f1.mark [line] COLOR_GOOD = .ok f2 ∧
      (f2.lines.get? (line - 1).toNat).map SourceLine.color = some COLOR_GOOD := by
  have hbad : COLOR_BAD ∈ validMarkings := by decide
  have hgood : COLOR_GOOD ∈ validMarkings := by decide
  have hstep1 := mark_singleton_ok f line COLOR_BAD hbad h1 h2
  set f1 : ReportFile :=
    { f with lines := ReportFile.setLineColor f.lines (line - 1).toNat COLOR_BAD }
  have hlen1 : (f1.lines.length : Int) = (f.lines.length : Int) := by
    simp [f1, setLineColor_length]
  have hstep2 := mark_singleton_ok f1 line COLOR_GOOD hgood h1 (hlen1 ▸ h2)
  refine ⟨f1, _, hstep1, hstep2, ?_⟩
  have hidx : (line - 1).toNat < f.lines.length := by omega
  have hget := List.get?_eq_get hidx
  rw [setLineColor_get?, setLineColor_get?, hget]
  rfl

/-- Witness for **C7**: line 2 of the concrete three-line file, marked BAD and
then GOOD, ends with category GOOD. -/
theorem mark_last_write_wins_witness :
    ∃ f1 f2, exFile.mark [2] COLOR_BAD = .ok f1 ∧
      f1.mark [2] COLOR_GOOD = .ok f2 ∧
      (f2.lines.get? ((2 : Int) - 1).toNat).map SourceLine.color = some COLOR_GOOD :=
  mark_last_write_wins exFile 2 (by decide) (by decide)

/-- `Report.addFile` on an identity already in the pool: the report is
unchanged and the new instance's output path is redirected. -/
theorem addFile_of_found {env : Env} {r : Report} {k : String} {f v : ReportFile}
    (hk : ReportFile.identifier env f = k) (h : dictFind r.files k = some v) :
    Report.addFile env r f = (r, { f with outputpath := v.outputpath }) := by
  unfold Report.addFile
  rw [hk]
  simp only [h]

/-- `Report.addFile` on a fresh identity: the snippet, with the next
sequential output filename, is appended to the pool. -/
theorem addFile_of_fresh {env : Env} {r : Report} {f : ReportFile}
    (h : dictFind r.files (ReportFile.identifier env f) = none) :
    Report.addFile env r f
      = ({ r with files := r.files ++ [(ReportFile.identifier env f,
            { f with outputpath := filesRelDir ++ toString r.files.length ++ ".html" })] },
          { f with outputpath := filesRelDir ++ toString r.files.length ++ ".html" }) := by
  unfold Report.addFile
  simp only [h]

/-- **C1**: when a snippet identity first enters the report, the snippet is
assigned the next sequential output filename and appended to the pool; after
any further sequence of `Report.add` calls, adding a second snippet with the
same identity leaves the report completely unchanged and redirects the
duplicate's output path to the first snippet's, so both instances resolve to
the same output path and the pool holds exactly one entry with that identity
(hence `render` writes exactly one per-snippet document for it). -/
theorem codesnippet_dedup_first_wins (env : Env) (r : Report) (f1 f2 : ReportFile)
    (ds : List (String × ReportData))
    (hid : ReportFile.identifier env f2 = ReportFile.identifier env f1)
    (hfresh : dictFind r.files (ReportFile.identifier env f1) = none) :
    (Report.addFile env r f1).2.outputpath
        = filesRelDir ++ toString r.files.length ++ ".html" ∧
    (Report.addFile env r f1).1.files
        = r.files ++ [(ReportFile.identifier env f1, (Report.addFile env r f1).2)] ∧
    (Report.addFile env (Report.addSeq env (Report.addFile env r f1).1 ds) f2).1
        = Report.addSeq env (Report.addFile env r f1).1 ds ∧
    (Report.addFile env (Report.addSeq env (Report.addFile env r f1).1 ds) f2).2.outputpath
        = (Report.addFile env r f1).2.outputpath ∧
    ((Report.addFile env (Report.addSeq env (Report.addFile env r f1).1 ds) f2).1.files.map
        Prod.fst).count (ReportFile.identifier env f1) = 1 := by
  have h1 := addFile_of_fresh hfresh
  have hfound : dictFind (Report.addFile env r f1).1.files (ReportFile.identifier env f1)
      = some (Report.addFile env r f1).2 := by
    rw [h1]
    rw [dictFind_append_right _ hfresh, dictFind_cons]
    simp
  have hcount1 : ((Report.addFile env r f1).1.files.map Prod.fst).count
      (ReportFile.identifier env f1) = 1 := by
    rw [h1]
    simp [List.count_append, List.count_cons,
      count_keys_eq_zero_of_dictFind_none hfresh]
  have hseq := addSeq_files_of_found env ds _ hfound
  have hdup := addFile_of_found hid hseq.1
  refine ⟨by rw [h1], by rw [h1], by rw [hdup], by rw [hdup, h1], ?_⟩
  rw [hdup]
  exact hseq.2.trans hcount1

/-- Witness for **C1**: two byte-identical snippets of `a.py` added to an
empty report; the first gets `files/0.html`, the duplicate redirects to it and
the pool holds one entry. -/
theorem codesnippet_dedup_first_wins_witness :
    (Report.addFile idEnv Report.empty exFile).2.outputpath
        = filesRelDir ++ toString (Report.empty).files.length ++ ".html" ∧
    (Report.addFile idEnv Report.empty exFile).1.files
        = Report.empty.files ++ [(ReportFile.identifier idEnv exFile,
            (Report.addFile idEnv Report.empty exFile).2)] ∧
    (Report.addFile idEnv
        (Report.addSeq idEnv (Report.addFile idEnv Report.empty exFile).1 []) exFile).1
      = Report.addSeq idEnv (Report.addFile idEnv Report.empty exFile).1 [] ∧
    (Report.addFile idEnv
        (Report.addSeq idEnv (Report.addFile idEnv Report.empty exFile).1 []) exFile).2.outputpath
      = (Report.addFile idEnv Report.empty exFile).2.outputpath ∧
    ((Report.addFile idEnv
        (Report.addSeq idEnv (Report.addFile idEnv Report.empty exFile).1 []) exFile).1.files.map
        Prod.fst).count (ReportFile.identifier idEnv exFile) = 1 :=
  codesnippet_dedup_first_wins idEnv Report.empty exFile exFile [] rfl rfl

end PackagePy
